import Mathlib

/-!
Verification development for the WaterlooWorks Azure browser extension.

This file gives a shallow embedding of the DOM field-extraction and
re-presentation pipeline (`src/content/job-info-rearranger.js`) and of the
navigator's job-table/modal logic (shortlist state and `navigateJob`), and
proves properties of those definitions.

Modelling conventions:
* JavaScript strings are Lean `String`s; `s.trim()`, `s.toLowerCase()`,
  `s.toUpperCase()`, `s.includes(t)` and `s.replace(/:$/, '')` are modelled by
  the character-level functions `jsTrim`, `jsToLower`, `jsToUpper`,
  `jsIncludes` and `stripTrailingColon` below (kept executable so concrete
  instances evaluate by `decide`).
* A plain JavaScript object used as a dictionary is an association list
  `List (String × α)` with property read `objGet` (first binding wins; the
  construction below keeps keys unique) and property write `objSet`
  (overwrite in place, else append).
* DOM elements are opaque `Nat` handles; DOM reads become record fields of an
  input structure and DOM writes become an explicit effect record.
-/

namespace WWAzure

/-- Whitespace recognised by the model of JavaScript `String.prototype.trim`
(space, tab, newline, carriage return — the characters that occur in the
target markup). -/
def isJsWhitespace (c : Char) : Bool :=
  c = ' ' || c = '\t' || c = '\n' || c = '\r'

/-- Model of JavaScript `s.trim()`. -/
def jsTrim (s : String) : String :=
  String.mk (((s.data.dropWhile isJsWhitespace).reverse.dropWhile isJsWhitespace).reverse)

/-- Model of JavaScript `s.toLowerCase()` (ASCII case mapping). -/
def jsToLower (s : String) : String :=
  String.mk (s.data.map Char.toLower)

/-- Model of JavaScript `s.toUpperCase()` (ASCII case mapping). -/
def jsToUpper (s : String) : String :=
  String.mk (s.data.map Char.toUpper)

/-- `listStarts l pat` is true when `l` begins with the character list `pat`. -/
def listStarts : List Char → List Char → Bool
  | _, [] => true
  | [], _ :: _ => false
  | c :: cs, p :: ps => c = p && listStarts cs ps

/-- `listContains l pat` is true when `pat` occurs contiguously inside `l`. -/
def listContains : List Char → List Char → Bool
  | [], pat => pat.isEmpty
  | c :: cs, pat => listStarts (c :: cs) pat || listContains cs pat

/-- Model of JavaScript `s.includes(sub)`. -/
def jsIncludes (s sub : String) : Bool :=
  listContains s.data sub.data

/-- Model of JavaScript `s.replace(/:$/, '')`: remove one trailing colon. -/
def stripTrailingColon (s : String) : String :=
  match s.data.reverse with
  | [] => s
  | c :: rest => if c = ':' then String.mk rest.reverse else s

/-- Model of JavaScript `parts.join(', ')`. -/
def joinCommaSpace : List String → String
  | [] => ""
  | [x] => x
  | x :: y :: rest => x ++ ", " ++ joinCommaSpace (y :: rest)

/-- Property read on a JavaScript object modelled as an association list
(`obj[key]`, `undefined` becomes `none`). -/
def objGet : List (String × α) → String → Option α
  | [], _ => none
  | (k, v) :: rest, key => if key = k then some v else objGet rest key

/-- Property write on a JavaScript object modelled as an association list
(`obj[key] = v`: overwrite an existing binding in place, otherwise append). -/
def objSet (m : List (String × α)) (k : String) (v : α) : List (String × α) :=
  if m.any (fun p => p.1 = k) then
    m.map (fun p => if p.1 = k then (k, v) else p)
  else
    m ++ [(k, v)]

/-! ## Label Dictionary (`LABEL_TO_KEY`, `getLabelKey`) -/

/-- The static label dictionary of `job-info-rearranger.js`, in source
(insertion) order — `Object.entries` iterates string keys in that order. -/
def LABEL_TO_KEY : List (String × String) := [
  ("work term duration", "duration"),
  ("work term", "work_term"),
  ("region", "location"),
  ("job - city", "city"),
  ("job - province/state", "province"),
  ("job - country", "country"),
  ("job - address line one", "address"),
  ("job - postal/zip code", "postal"),
  ("employment location arrangement", "arrangement"),
  ("compensation and benefits", "compensation"),
  ("application deadline", "deadline"),
  ("application delivery", "method"),
  ("if by website, go to", "external_url"),
  ("job summary", "job_description"),
  ("job responsibilities", "responsibilities"),
  ("required skills", "required_skills"),
  ("targeted degrees and disciplines", "targeted_degrees")
]

/-- The normalisation `getLabelKey` applies to its argument:
`labelText.trim().toLowerCase().replace(/:$/, '')`. -/
def normalizeLabel (s : String) : String :=
  stripTrailingColon (jsToLower (jsTrim s))

/-- Model of `getLabelKey` (lines 81–92): exact dictionary hit on the
normalised label, else the first entry (in table order) related to it by
bidirectional substring containment, else `null`. -/
def getLabelKey (labelText : String) : Option String :=
  let lower := normalizeLabel labelText
  match objGet LABEL_TO_KEY lower with
  | some key => some key
  | none =>
    match LABEL_TO_KEY.find? (fun pk => jsIncludes lower pk.1 || jsIncludes pk.1 lower) with
    | some pk => some pk.2
    | none => none

/-! ## Field Extractor (`parseFieldsFromModal`) -/

/-- One extracted datum: the `{ label, value, element }` record stored in
`fields[key]` (the DOM element is an opaque handle). -/
structure Field where
  label : String
  value : String
  element : Nat
deriving DecidableEq, Repr

/-- One `.tag__key-value-list` widget as the extractor reads it from the DOM:
whether `parentElement` exists, the text of the `.label` element (if any),
the text of the `p` value element (if any), the text of a nested table
(if any), and the opaque handle of the parent element. -/
structure Widget where
  hasParent : Bool
  labelRaw : Option String
  pText : Option String
  tableText : Option String
  parentElem : Nat
deriving DecidableEq, Repr

/-- The value text the extractor reads from a widget: the trimmed `p` text,
falling back to the nested table's trimmed text when the `p` text is empty;
`''` when there is no `p` element (the table is only consulted when a `p`
element exists, as in the source). -/
def widgetValue (w : Widget) : String :=
  match w.pText with
  | none => ""
  | some t =>
    let v := jsTrim t
    match w.tableText with
    | some tb => if v = "" then jsTrim tb else v
    | none => v

/-- The write a single widget performs on the `fields` object, if any:
skip when the parent or label element is missing, when the trimmed
colon-stripped label text is empty, or when `getLabelKey` misses; otherwise
record `(key, { label, value, element })`. -/
def widgetWrite (w : Widget) : Option (String × Field) :=
  if !w.hasParent then none
  else
    match w.labelRaw with
    | none => none
    | some raw =>
      let labelText := stripTrailingColon (jsTrim raw)
      if labelText = "" then none
      else
        match getLabelKey labelText with
        | none => none
        | some key => some (key, ⟨labelText, widgetValue w, w.parentElem⟩)

/-- The two parallel objects `parseFieldsFromModal` returns. -/
structure ParsedFields where
  fields : List (String × Field)
  fieldElements : List (String × Nat)
deriving DecidableEq, Repr

/-- Processing of one widget inside `parseFieldsFromModal`'s `forEach`. -/
def parseStep (acc : ParsedFields) (w : Widget) : ParsedFields :=
  match widgetWrite w with
  | none => acc
  | some (k, f) => ⟨objSet acc.fields k f, objSet acc.fieldElements k f.element⟩

/-- Model of `parseFieldsFromModal` (lines 95–135): fold the widget list in
document order, performing each successful write on both objects. -/
def parseFieldsFromModal (widgets : List Widget) : ParsedFields :=
  widgets.foldl parseStep ⟨[], []⟩

/-! ## Priority Composer (`buildLocation`, `createPriorityBox`) -/

/-- The settings subset the rearranger reads (`DEFAULT_SETTINGS`, lines 24–28). -/
structure Settings where
  jobRearrangerEnabled : Bool
  jobRearrangerPriorityKeys : List String
  jobRearrangerStandardOrder : List String
deriving DecidableEq, Repr

/-- The rearranger's built-in default settings. -/
def DEFAULT_SETTINGS : Settings :=
  { jobRearrangerEnabled := true
    jobRearrangerPriorityKeys := ["duration", "location", "compensation", "deadline", "method"]
    jobRearrangerStandardOrder := ["job_description", "responsibilities", "required_skills", "targeted_degrees"] }

/-- Model of `buildLocation` (lines 138–148): join the `city` and `province`
values with `', '` when either is present, else fall back to the
region-derived `location` field's value, else `null`. -/
def buildLocation (fields : List (String × Field)) : Option String :=
  let parts :=
    (match objGet fields "city" with | some f => [f.value] | none => []) ++
    (match objGet fields "province" with | some f => [f.value] | none => [])
  if parts.length > 0 then some (joinCommaSpace parts)
  else
    match objGet fields "location" with
    | some f => some f.value
    | none => none

/-- A derived display record pushed onto `priorityItems`. -/
structure PriorityItem where
  label : String
  value : String
  key : String
  isLink : Bool
deriving DecidableEq, Repr

/-- The `duration` block of `createPriorityBox` (lines 158–164). -/
def durationItems (priorityKeys : List String) (fields : List (String × Field)) :
    List PriorityItem :=
  if "duration" ∈ priorityKeys then
    match objGet fields "duration" with
    | some f => [⟨"Work Term Duration", f.value, "duration", false⟩]
    | none => []
  else []

/-- The `location` block of `createPriorityBox` (lines 167–176); the built
location string is used only when truthy (non-`null`, non-empty). -/
def locationItems (priorityKeys : List String) (fields : List (String × Field)) :
    List PriorityItem :=
  if "location" ∈ priorityKeys then
    match buildLocation fields with
    | some v => if v = "" then [] else [⟨"Location", v, "location", false⟩]
    | none => []
  else []

/-- The `compensation` block of `createPriorityBox` (lines 179–185). -/
def compensationItems (priorityKeys : List String) (fields : List (String × Field)) :
    List PriorityItem :=
  if "compensation" ∈ priorityKeys then
    match objGet fields "compensation" with
    | some f => [⟨"Compensation & Benefits", f.value, "compensation", false⟩]
    | none => []
  else []

/-- The `deadline` block of `createPriorityBox` (lines 188–194). -/
def deadlineItems (priorityKeys : List String) (fields : List (String × Field)) :
    List PriorityItem :=
  if "deadline" ∈ priorityKeys then
    match objGet fields "deadline" with
    | some f => [⟨"Application Deadline", f.value, "deadline", false⟩]
    | none => []
  else []

/-- The `method` block of `createPriorityBox` (lines 197–218): the item is
suppressed when the normalised value is exactly `waterlooworks`, contains
`waterlooworks`, or is empty; otherwise an `external_url` link item follows
when that field exists with a truthy value. -/
def methodItems (priorityKeys : List String) (fields : List (String × Field)) :
    List PriorityItem :=
  if "method" ∈ priorityKeys then
    match objGet fields "method" with
    | some f =>
      let methodLower := jsTrim (jsToLower f.value)
      let isRegular := methodLower = "waterlooworks" ||
                       jsIncludes methodLower "waterlooworks" ||
                       methodLower = ""
      if isRegular then []
      else
        ⟨"Apply Via", f.value, "method", false⟩ ::
        (match objGet fields "external_url" with
         | some u => if u.value = "" then [] else [⟨"Application URL", u.value, "external_url", true⟩]
         | none => [])
    | none => []
  else []

/-- The full `priorityItems` list, in the source's fixed block order. -/
def priorityItems (priorityKeys : List String) (fields : List (String × Field)) :
    List PriorityItem :=
  durationItems priorityKeys fields ++ locationItems priorityKeys fields ++
  compensationItems priorityKeys fields ++ deadlineItems priorityKeys fields ++
  methodItems priorityKeys fields

/-- Model of `createPriorityBox` (lines 151–313): `null` when the rearranger
is disabled or no item qualifies, otherwise the box rendering the item list. -/
def createPriorityBox (settings : Settings) (fields : List (String × Field)) :
    Option (List PriorityItem) :=
  if !settings.jobRearrangerEnabled then none
  else
    let items := priorityItems settings.jobRearrangerPriorityKeys fields
    if items = [] then none else some items

/-! ## Presentation Injector (`enhanceModal`) -/

/-- The location-constituent keys hidden when `'location'` is in the
priority list (line 400). -/
def locationKeys : List String := ["city", "province", "country", "address", "postal"]

/-- `concatMap l f` concatenates `f` applied to each element of `l`
(order preserving). -/
def concatMap : List α → (α → List β) → List β
  | [], _ => []
  | a :: as, f => f a ++ concatMap as f

/-- The sequence of hide operations (`element.style.display = 'none'`)
`enhanceModal` performs (lines 399–418): for each key in the priority list,
for `'location'` every present location-constituent element, otherwise the
key's own element; then the `deadline`, `method` and `external_url`
elements unconditionally when present. -/
def hiddenElems (priorityKeys : List String) (fieldElements : List (String × Nat)) :
    List Nat :=
  (concatMap priorityKeys (fun key =>
    if key = "location" then locationKeys.filterMap (objGet fieldElements)
    else (objGet fieldElements key).toList))
  ++ (objGet fieldElements "deadline").toList
  ++ (objGet fieldElements "method").toList
  ++ (objGet fieldElements "external_url").toList

/-- The DOM state `enhanceModal` reads: the loaded settings (or `null`), the
re-entrancy flag, whether the modal container is present, its
`dataset.azureEnhanced` value, the active tab's text (if an active tab
matches), the key-value widgets under the container, whether a panel headed
`Job Posting Information` exists, and whether a previously injected box is
present. -/
structure ModalDom where
  settingsOpt : Option Settings
  isEnhancing : Bool
  modalPresent : Bool
  azureEnhanced : String
  activeTabText : Option String
  widgets : List Widget
  anchorPanelPresent : Bool
  existingBoxPresent : Bool
deriving DecidableEq, Repr

/-- The DOM mutations one `enhanceModal` call performs: whether a previously
injected box was removed, whether a new box was inserted, the hide
operations in order, and whether the processed flag was set. -/
structure EnhanceEffects where
  removedExisting : Bool
  insertedPanel : Bool
  hidden : List Nat
  marked : Bool
deriving DecidableEq, Repr

/-- The effect record of a call that mutates nothing. -/
def noEffects : EnhanceEffects := ⟨false, false, [], false⟩

/-- The OVERVIEW-tab gate (lines 342–349): pass when no active tab is found,
or when the active tab's trimmed upper-cased text contains `OVERVIEW`. -/
def tabOk (d : ModalDom) : Bool :=
  match d.activeTabText with
  | some t => jsIncludes (jsToUpper (jsTrim t)) "OVERVIEW"
  | none => true

/-- Model of `enhanceModal` (lines 316–428) as the effects of one call:
the guard chain (settings loaded and enabled, not re-entrant, container
present, not already enhanced, OVERVIEW tab, non-empty extraction, anchor
panel found), then removal of any existing box, insertion of the new box
when `createPriorityBox` is non-`null`, the hide phase, and the processed
mark. The hide phase runs whether or not a box was inserted. -/
def enhanceModal (d : ModalDom) : EnhanceEffects :=
  match d.settingsOpt with
  | none => noEffects
  | some settings =>
    if !settings.jobRearrangerEnabled then noEffects
    else if d.isEnhancing then noEffects
    else if !d.modalPresent then noEffects
    else if d.azureEnhanced = "true" then noEffects
    else if !tabOk d then noEffects
    else
      let parsed := parseFieldsFromModal d.widgets
      if parsed.fields = [] then noEffects
      else if !d.anchorPanelPresent then noEffects
      else
        { removedExisting := d.existingBoxPresent
          insertedPanel := (createPriorityBox settings parsed.fields).isSome
          hidden := hiddenElems settings.jobRearrangerPriorityKeys parsed.fieldElements
          marked := true }

/-! ## Navigator: shortlist state (`toggleShortlistJob`, shortlist load/save) -/

/-- A job identifier as it arrives at `toggleShortlistJob`: either a number
or a string (`String(jobId)` coerces both). -/
inductive JobIdValue where
  | num (n : Nat)
  | str (s : String)
deriving DecidableEq, Repr

/-- Model of JavaScript `String(x)` on a job identifier. -/
def jsString : JobIdValue → String
  | .num n => toString n
  | .str s => s

/-- Model of `toggleShortlistJob` (lines 215–242) acting on the in-memory
shortlist set (a duplicate-free list of strings): coerce the identifier to a
string, then delete or add it, with the corresponding notification text. -/
def toggleShortlistJob (jobId : JobIdValue) (shortlistedJobs : List String) :
    List String × String :=
  let jobIdStr := jsString jobId
  if jobIdStr ∈ shortlistedJobs then
    (shortlistedJobs.filter (fun x => x ≠ jobIdStr), "Removed from shortlist")
  else
    (shortlistedJobs ++ [jobIdStr], "Added to shortlist!")

/-- Model of the shortlist loader (lines 54–59):
`new Set(JSON.parse(saved).map(String))` — every persisted entry is coerced
to a string and duplicates collapse (membership-equivalent deduplication). -/
def loadShortlist (saved : List JobIdValue) : List String :=
  (saved.map jsString).dedup

/-- Model of `saveShortlist` (lines 65–71): persist
`Array.from(shortlistedJobs)`. -/
def saveShortlist (shortlistedJobs : List String) : List String :=
  shortlistedJobs

/-! ## Navigator: `navigateJob` -/

/-- One entry of `jobLinks`: whether `link.closest('tr')` finds a row, and
that row's `getJobIdFromRow` result (`null` becomes `none`). -/
structure JobLink where
  hasRow : Bool
  rowJobId : Option String
deriving DecidableEq, Repr

/-- Model of JavaScript `String(getJobIdFromRow(row))`: `String(null)` is
the string `"null"`. -/
def rowIdStr : Option String → String
  | some s => s
  | none => "null"

/-- The document state `navigateJob` reads besides the tracked state: the
open modal's job id (if one is found) and the presence of the two
pagination controls. -/
structure NavEnv where
  modalJobId : Option String
  prevPageBtnPresent : Bool
  nextPageBtnPresent : Bool
deriving DecidableEq, Repr

/-- The navigator's mutable module state: the tracked job links and the
current index (`-1` when unset). -/
structure NavState where
  jobLinks : List JobLink
  currentJobIndex : Int
deriving DecidableEq, Repr

/-- The observable actions of one `navigateJob` call, in order. -/
inductive NavEffect where
  | notify (msg : String)
  | closeModal
  | watchTableUpdate (position : String)
  | clickPageBtn (dir : String)
  | clickJobLink (i : Nat)
deriving DecidableEq, Repr

/-- The scan at lines 411–419: first index whose row's id string equals the
modal's id string. -/
def findJobIndexAux : List JobLink → String → Nat → Option Nat
  | [], _, _ => none
  | l :: rest, mid, i =>
    if l.hasRow && rowIdStr l.rowJobId = mid then some i
    else findJobIndexAux rest mid (i + 1)

/-- First index in `links` matching the modal job id `mid`. -/
def findJobIndex (links : List JobLink) (mid : String) : Option Nat :=
  findJobIndexAux links mid 0

/-- The index re-detection of `navigateJob` (lines 405–433): match the open
modal's job id against the rows; on a miss keep a previously set index, and
otherwise start from the boundary the navigation direction implies. -/
def detectIndex (env : NavEnv) (st : NavState) (delta : Int) : Int :=
  let fallback :=
    if st.currentJobIndex < 0 then
      (if delta > 0 then 0 else (st.jobLinks.length : Int) - 1)
    else st.currentJobIndex
  match env.modalJobId with
  | some mid =>
    match findJobIndex st.jobLinks mid with
    | some i => (i : Int)
    | none => fallback
  | none => fallback

/-- The tail of `navigateJob` (lines 480–505): store the new index, and when
a link exists at it, close the modal and click that link. -/
def finishNavigate (st : NavState) (newIndex : Nat) (effs : List NavEffect) :
    NavState × List NavEffect :=
  let st' := { st with currentJobIndex := (newIndex : Int) }
  if newIndex < st.jobLinks.length then
    (st', effs ++ [NavEffect.closeModal, NavEffect.clickJobLink newIndex])
  else (st', effs)

/-- Model of `navigateJob` (lines 388–506): bail out when no job links
exist; re-detect the current index; on an out-of-range target either hand
off to pagination (close the modal, arm the table-update watch, click the
page control) or clamp to the boundary with a non-blocking notification and
fall through to re-opening the boundary row. -/
def navigateJob (env : NavEnv) (st : NavState) (delta : Int) :
    NavState × List NavEffect :=
  if st.jobLinks.isEmpty then (st, [NavEffect.notify "No jobs found on this page"])
  else
    let current := detectIndex env st delta
    let newIndex := current + delta
    if newIndex < 0 then
      if env.prevPageBtnPresent then
        ({ st with currentJobIndex := current },
         [NavEffect.closeModal, NavEffect.watchTableUpdate "last", NavEffect.clickPageBtn "prev"])
      else
        finishNavigate st 0 [NavEffect.notify "First job (no previous page)"]
    else if (st.jobLinks.length : Int) ≤ newIndex then
      if env.nextPageBtnPresent then
        ({ st with currentJobIndex := current },
         [NavEffect.closeModal, NavEffect.watchTableUpdate "first", NavEffect.clickPageBtn "next"])
      else
        finishNavigate st (st.jobLinks.length - 1) [NavEffect.notify "Last job (no next page)"]
    else
      finishNavigate st newIndex.toNat []

/-! ## Observers and concrete scenarios used by the theorems -/

/-- The item list a `createPriorityBox` result renders (`null` renders
nothing). -/
def boxItems : Option (List PriorityItem) → List PriorityItem
  | some items => items
  | none => []

/-- A detail view whose only recognised field is an `Application Delivery`
widget valued `WaterlooWorks`: extraction succeeds but no priority item
qualifies, so no panel is inserted. -/
def methodOnlyDom : ModalDom :=
  { settingsOpt := some DEFAULT_SETTINGS
    isEnhancing := false
    modalPresent := true
    azureEnhanced := "false"
    activeTabText := some "OVERVIEW"
    widgets := [⟨true, some "Application Delivery", some "WaterlooWorks", none, 7⟩]
    anchorPanelPresent := true
    existingBoxPresent := false }

/-- A detail view already carrying the processed flag
(`dataset.azureEnhanced === 'true'`) but otherwise ready to enhance. -/
def alreadyEnhancedDom : ModalDom :=
  { settingsOpt := some DEFAULT_SETTINGS
    isEnhancing := false
    modalPresent := true
    azureEnhanced := "true"
    activeTabText := some "OVERVIEW"
    widgets := [⟨true, some "Work Term Duration", some "4 months", none, 3⟩]
    anchorPanelPresent := true
    existingBoxPresent := true }

/-- A two-row listing with the modal open on the second (last) row and no
pagination controls. -/
def lastRowEnv : NavEnv :=
  { modalJobId := some "234567", prevPageBtnPresent := false, nextPageBtnPresent := false }

/-- The tracked state matching `lastRowEnv`: two rows, index on the last. -/
def lastRowState : NavState :=
  { jobLinks := [⟨true, some "123456"⟩, ⟨true, some "234567"⟩], currentJobIndex := 1 }

/-! ## Association-list lemmas -/

theorem objGet_nil (key : String) : objGet ([] : List (String × α)) key = none := rfl

theorem objGet_cons (ak : String) (av : α) (rest : List (String × α)) (key : String) :
    objGet ((ak, av) :: rest) key = if key = ak then some av else objGet rest key := rfl

theorem objGet_append (m₁ m₂ : List (String × α)) (key : String) :
    objGet (m₁ ++ m₂) key =
      match objGet m₁ key with
      | some v => some v
      | none => objGet m₂ key := by
  induction m₁ with
  | nil => rfl
  | cons a rest ih =>
    obtain ⟨ak, av⟩ := a
    by_cases h : key = ak
    · simp [objGet_cons, h]
    · simp [objGet_cons, h, ih]

theorem objGet_map_replace (k k' : String) (v : α) (h : k' ≠ k)
    (m : List (String × α)) :
    objGet (m.map (fun p => if p.1 = k then (k, v) else p)) k' = objGet m k' := by
  induction m with
  | nil => rfl
  | cons a rest ih =>
    obtain ⟨ak, av⟩ := a
    by_cases hak : ak = k
    · simp [hak, objGet_cons, h, ih]
    · simp [hak, objGet_cons, ih]

theorem objGet_map_self (k : String) (v : α) (m : List (String × α))
    (hany : m.any (fun p => p.1 = k) = true) :
    objGet (m.map (fun p => if p.1 = k then (k, v) else p)) k = some v := by
  induction m with
  | nil => simp at hany
  | cons a rest ih =>
    obtain ⟨ak, av⟩ := a
    by_cases hak : ak = k
    · simp [hak, objGet_cons]
    · have hrest : rest.any (fun p => p.1 = k) = true := by
        simpa [hak] using hany
      have hka : ¬ (k = ak) := fun hh => hak hh.symm
      simp [hak, objGet_cons, hka, ih hrest]

theorem objGet_not_found (k : String) (m : List (String × α))
    (hany : m.any (fun p => p.1 = k) = false) :
    objGet m k = none := by
  induction m with
  | nil => rfl
  | cons a rest ih =>
    obtain ⟨ak, av⟩ := a
    have h1 : ¬ (ak = k) := by
      intro hh
      simp [hh] at hany
    have h2 : rest.any (fun p => p.1 = k) = false := by
      simpa [h1] using hany
    have hka : ¬ (k = ak) := fun hh => h1 hh.symm
    simp [objGet_cons, hka, ih h2]

/-- JavaScript-object write/read law: reading the written key yields the new
value, reading any other key is unchanged. -/
theorem objGet_objSet (m : List (String × α)) (k k' : String) (v : α) :
    objGet (objSet m k v) k' = if k' = k then some v else objGet m k' := by
  unfold objSet
  by_cases hany : m.any (fun p => p.1 = k) = true
  · rw [if_pos hany]
    by_cases hk : k' = k
    · subst hk
      rw [if_pos rfl]
      exact objGet_map_self _ v m hany
    · rw [if_neg hk, objGet_map_replace _ k' v hk m]
  · have hf : m.any (fun p => p.1 = k) = false := by
      cases h : m.any (fun p => p.1 = k)
      · rfl
      · exact absurd h hany
    rw [if_neg (by simp [hf]), objGet_append]
    by_cases hk : k' = k
    · subst hk
      rw [objGet_not_found _ m hf]
      simp [objGet_cons]
    · rw [if_neg hk]
      cases h : objGet m k' with
      | some w => rfl
      | none => simp [objGet_cons, hk, objGet_nil]

theorem objGet_mem (m : List (String × α)) (p : String) (k : α)
    (h : objGet m p = some k) : (p, k) ∈ m := by
  induction m with
  | nil => simp [objGet_nil] at h
  | cons a rest ih =>
    obtain ⟨ak, av⟩ := a
    rw [objGet_cons] at h
    by_cases hp : p = ak
    · rw [if_pos hp] at h
      subst hp
      obtain rfl : av = k := Option.some.inj h
      exact List.mem_cons_self _ _
    · rw [if_neg hp] at h
      exact List.mem_cons_of_mem _ (ih h)

theorem objGet_of_mem (m : List (String × α)) (p : String) (k : α)
    (hnodup : (m.map Prod.fst).Nodup) (h : (p, k) ∈ m) : objGet m p = some k := by
  induction m with
  | nil => simp at h
  | cons a rest ih =>
    obtain ⟨ak, av⟩ := a
    rw [List.map_cons, List.nodup_cons] at hnodup
    rcases List.mem_cons.mp h with heq | hrest
    · obtain ⟨rfl, rfl⟩ := Prod.mk.injEq .. ▸ And.intro (congrArg Prod.fst heq) (congrArg Prod.snd heq)
      rw [objGet_cons, if_pos rfl]
    · have hp : p ≠ ak := by
        intro hh
        exact hnodup.1 (hh ▸ (List.mem_map.mpr ⟨(p, k), hrest, rfl⟩))
      rw [objGet_cons, if_neg hp]
      exact ih hnodup.2 hrest

/-! ## String-helper lemmas -/

theorem listStarts_self : ∀ l : List Char, listStarts l l = true
  | [] => rfl
  | c :: cs => by simp [listStarts, listStarts_self cs]

theorem jsIncludes_self (s : String) : jsIncludes s s = true := by
  unfold jsIncludes
  cases h : s.data with
  | nil => rfl
  | cons c cs =>
    simp only [listContains, Bool.or_eq_true]
    exact Or.inl (listStarts_self _)

/-! ## Extractor lemmas -/

/-- Lookup in the folded `fields` object: the last write in the widget list
wins, falling back to the accumulator. -/
theorem parse_foldl_lookup (ws : List Widget) :
    ∀ (acc : ParsedFields) (k : String),
      objGet (ws.foldl parseStep acc).fields k =
        match objGet ((ws.filterMap widgetWrite).reverse) k with
        | some f => some f
        | none => objGet acc.fields k := by
  induction ws with
  | nil => intro acc k; rfl
  | cons w ws ih =>
    intro acc k
    rw [List.foldl_cons]
    rw [ih (parseStep acc w) k]
    cases hw : widgetWrite w with
    | none =>
      simp only [List.filterMap_cons, hw, parseStep]
    | some p =>
      obtain ⟨kw, fw⟩ := p
      simp only [List.filterMap_cons, hw, parseStep, List.reverse_cons]
      rw [objGet_append]
      cases hrev : objGet ((ws.filterMap widgetWrite).reverse) k with
      | some f => rfl
      | none =>
        simp only [objGet_objSet]
        rw [objGet_cons]
        by_cases hk : k = kw
        · rw [if_pos hk, if_pos hk]
        · rw [if_neg hk, if_neg hk, objGet_nil]

/-- C1 (amended): in the mapping `parseFieldsFromModal` returns, each
canonical key is bound to the `Field` of the LAST successful write for that
key in document order (later structural matches overwrite earlier ones). -/
theorem parseFields_last_write_wins (ws : List Widget) (k : String) :
    objGet (parseFieldsFromModal ws).fields k =
      objGet ((ws.filterMap widgetWrite).reverse) k := by
  unfold parseFieldsFromModal
  rw [parse_foldl_lookup ws ⟨[], []⟩ k]
  cases objGet ((ws.filterMap widgetWrite).reverse) k <;> rfl

/-- C1 (counterexample): two widgets whose labels both resolve to
`duration` — the returned mapping keeps the SECOND widget's field, so the
claimed "first structural match wins" rule is false on the code. -/
theorem parseFields_first_match_fails :
    objGet (parseFieldsFromModal
      [⟨true, some "Work Term Duration", some "4 months", none, 1⟩,
       ⟨true, some "Work Term Duration:", some "8 months", none, 2⟩]).fields "duration"
      = some ⟨"Work Term Duration", "8 months", 2⟩ ∧
    (some (⟨"Work Term Duration", "8 months", 2⟩ : Field) ≠
      some ⟨"Work Term Duration", "4 months", 1⟩) := by
  constructor
  · decide
  · decide

/-! ## Label-dictionary theorems (C7, C10) -/

/-- C7: `getLabelKey` returns the documented canonical key for every label
whose normalisation (trim, lowercase, strip one trailing colon) is an
exact-match dictionary entry, and returns `none` for every label whose
normalisation has no bidirectional substring containment with any
dictionary entry. -/
theorem getLabelKey_exact_and_miss :
    (∀ s p k, (p, k) ∈ LABEL_TO_KEY → normalizeLabel s = p → getLabelKey s = some k) ∧
    (∀ s, (∀ pk ∈ LABEL_TO_KEY,
        jsIncludes (normalizeLabel s) pk.1 = false ∧
        jsIncludes pk.1 (normalizeLabel s) = false) →
      getLabelKey s = none) := by
  constructor
  · intro s p k hmem hnorm
    have hnodup : (LABEL_TO_KEY.map Prod.fst).Nodup := by decide
    have hget : objGet LABEL_TO_KEY p = some k := objGet_of_mem LABEL_TO_KEY p k hnodup hmem
    simp only [getLabelKey]
    rw [hnorm, hget]
  · intro s h
    simp only [getLabelKey]
    have hobj : objGet LABEL_TO_KEY (normalizeLabel s) = none := by
      cases hx : objGet LABEL_TO_KEY (normalizeLabel s) with
      | none => rfl
      | some k =>
        exfalso
        have hmem := objGet_mem LABEL_TO_KEY (normalizeLabel s) k hx
        have := (h _ hmem).1
        rw [jsIncludes_self] at this
        exact Bool.true_eq_false.mp this
    rw [hobj]
    have hfind : LABEL_TO_KEY.find?
        (fun pk => jsIncludes (normalizeLabel s) pk.1 || jsIncludes pk.1 (normalizeLabel s)) = none := by
      rw [List.find?_eq_none]
      intro pk hmem
      have h1 := (h pk hmem).1
      have h2 := (h pk hmem).2
      simp [h1, h2]
    rw [hfind]

/-- C7 witness: a decorated exact-match label resolves to its documented
key, and a fully unrelated label resolves to `none`. -/
theorem getLabelKey_exact_and_miss_witness :
    getLabelKey "  Application Deadline:  " = some "deadline" ∧
    getLabelKey "xyzqqq" = none :=
  ⟨getLabelKey_exact_and_miss.1 "  Application Deadline:  " "application deadline" "deadline"
      (by decide) (by decide),
   getLabelKey_exact_and_miss.2 "xyzqqq" (by decide)⟩

/-- C10: every raw label whose normalisation is empty resolves to
`duration`, the key of the first dictionary entry (the substring fallback
accepts the empty candidate as a substring of every pattern); and the
extractor skips a widget whose trimmed colon-stripped label text is empty
before calling `getLabelKey`. -/
theorem getLabelKey_empty_label :
    (∀ s, normalizeLabel s = "" → getLabelKey s = some "duration") ∧
    (∀ (w : Widget) (raw : String), w.labelRaw = some raw →
      stripTrailingColon (jsTrim raw) = "" → widgetWrite w = none) := by
  constructor
  · intro s h
    unfold getLabelKey
    rw [h]
    decide
  · intro w raw h1 h2
    cases hp : w.hasParent with
    | false => simp [widgetWrite, hp]
    | true => simp [widgetWrite, hp, h1, h2]

/-- C10 witness: the label `":"` normalises to the empty string and resolves
to `duration`; a widget labelled `":"` is skipped by the extractor. -/
theorem getLabelKey_empty_label_witness :
    getLabelKey ":" = some "duration" ∧
    widgetWrite ⟨true, some ":", none, none, 5⟩ = none :=
  ⟨getLabelKey_empty_label.1 ":" (by decide),
   getLabelKey_empty_label.2 ⟨true, some ":", none, none, 5⟩ ":" rfl (by decide)⟩

/-! ## Composer lemmas -/

theorem key_of_mem_durationItems (pk : List String) (fs : List (String × Field))
    (it : PriorityItem) (h : it ∈ durationItems pk fs) : it.key = "duration" := by
  unfold durationItems at h
  split_ifs at h
  · cases hx : objGet fs "duration" with
    | none => rw [hx] at h; simp at h
    | some f => rw [hx] at h; simp at h; rw [h]
  · simp at h

theorem key_of_mem_locationItems (pk : List String) (fs : List (String × Field))
    (it : PriorityItem) (h : it ∈ locationItems pk fs) : it.key = "location" := by
  unfold locationItems at h
  split_ifs at h
  · cases hx : buildLocation fs with
    | none => rw [hx] at h; simp at h
    | some v =>
      rw [hx] at h
      by_cases hv : v = ""
      · simp [hv] at h
      · simp [hv] at h; rw [h]
  · simp at h

theorem key_of_mem_compensationItems (pk : List String) (fs : List (String × Field))
    (it : PriorityItem) (h : it ∈ compensationItems pk fs) : it.key = "compensation" := by
  unfold compensationItems at h
  split_ifs at h
  · cases hx : objGet fs "compensation" with
    | none => rw [hx] at h; simp at h
    | some f => rw [hx] at h; simp at h; rw [h]
  · simp at h

theorem key_of_mem_deadlineItems (pk : List String) (fs : List (String × Field))
    (it : PriorityItem) (h : it ∈ deadlineItems pk fs) : it.key = "deadline" := by
  unfold deadlineItems at h
  split_ifs at h
  · cases hx : objGet fs "deadline" with
    | none => rw [hx] at h; simp at h
    | some f => rw [hx] at h; simp at h; rw [h]
  · simp at h

theorem key_of_mem_methodItems (pk : List String) (fs : List (String × Field))
    (it : PriorityItem) (h : it ∈ methodItems pk fs) :
    it.key = "method" ∨ it.key = "external_url" := by
  unfold methodItems at h
  split_ifs at h
  · cases hx : objGet fs "method" with
    | none => rw [hx] at h; simp at h
    | some f =>
      rw [hx] at h
      dsimp only at h
      split_ifs at h
      · simp at h
      · rcases List.mem_cons.mp h with h1 | h2
        · exact Or.inl (h1 ▸ rfl)
        · cases hu : objGet fs "external_url" with
          | none => rw [hu] at h2; simp at h2
          | some u =>
            rw [hu] at h2
            by_cases hv : u.value = ""
            · simp [hv] at h2
            · simp [hv] at h2
              exact Or.inr (h2 ▸ rfl)
  · simp at h

/-- When the method value is the trivial default, the method block emits
nothing at all. -/
theorem methodItems_nil_of_regular (pk : List String) (fs : List (String × Field))
    (f : Field) (hf : objGet fs "method" = some f)
    (hreg : jsTrim (jsToLower f.value) = "waterlooworks" ∨ jsTrim (jsToLower f.value) = "") :
    methodItems pk fs = [] := by
  unfold methodItems
  split_ifs with hpk
  · rw [hf]
    dsimp only
    have hcond : (jsTrim (jsToLower f.value) = "waterlooworks" ||
        jsIncludes (jsTrim (jsToLower f.value)) "waterlooworks" ||
        jsTrim (jsToLower f.value) = "") = true := by
      rcases hreg with h | h <;> rw [h] <;> decide
    rw [if_pos hcond]
  · rfl

/-- When `buildLocation` misses, the location block emits nothing. -/
theorem locationItems_nil_of_none (pk : List String) (fs : List (String × Field))
    (h : buildLocation fs = none) : locationItems pk fs = [] := by
  unfold locationItems
  split_ifs
  · rw [h]
  · rfl

/-- Splitting membership in the composed item list into the five blocks. -/
theorem mem_priorityItems (pk : List String) (fs : List (String × Field))
    (it : PriorityItem) (h : it ∈ priorityItems pk fs) :
    it ∈ durationItems pk fs ∨ it ∈ locationItems pk fs ∨
    it ∈ compensationItems pk fs ∨ it ∈ deadlineItems pk fs ∨
    it ∈ methodItems pk fs := by
  unfold priorityItems at h
  simp only [List.mem_append] at h
  tauto

/-- The keys of each block form a sublist of that block's fixed key set. -/
theorem durationItems_keys (pk : List String) (fs : List (String × Field)) :
    List.Sublist ((durationItems pk fs).map (fun it => it.key)) ["duration"] := by
  unfold durationItems
  split_ifs
  · cases objGet fs "duration"
    · exact List.nil_sublist _
    · simp only [List.map_cons, List.map_nil]
      exact List.Sublist.refl _
  · exact List.nil_sublist _

theorem locationItems_keys (pk : List String) (fs : List (String × Field)) :
    List.Sublist ((locationItems pk fs).map (fun it => it.key)) ["location"] := by
  unfold locationItems
  split_ifs
  · cases buildLocation fs with
    | none => exact List.nil_sublist _
    | some v =>
      dsimp only
      split_ifs
      · exact List.nil_sublist _
      · simp only [List.map_cons, List.map_nil]
        exact List.Sublist.refl _
  · exact List.nil_sublist _

theorem compensationItems_keys (pk : List String) (fs : List (String × Field)) :
    List.Sublist ((compensationItems pk fs).map (fun it => it.key)) ["compensation"] := by
  unfold compensationItems
  split_ifs
  · cases objGet fs "compensation"
    · exact List.nil_sublist _
    · simp only [List.map_cons, List.map_nil]
      exact List.Sublist.refl _
  · exact List.nil_sublist _

theorem deadlineItems_keys (pk : List String) (fs : List (String × Field)) :
    List.Sublist ((deadlineItems pk fs).map (fun it => it.key)) ["deadline"] := by
  unfold deadlineItems
  split_ifs
  · cases objGet fs "deadline"
    · exact List.nil_sublist _
    · simp only [List.map_cons, List.map_nil]
      exact List.Sublist.refl _
  · exact List.nil_sublist _

theorem methodItems_keys (pk : List String) (fs : List (String × Field)) :
    List.Sublist ((methodItems pk fs).map (fun it => it.key)) ["method", "external_url"] := by
  unfold methodItems
  split_ifs
  · cases objGet fs "method" with
    | none => exact List.nil_sublist _
    | some f =>
      dsimp only
      split_ifs
      · exact List.nil_sublist _
      · cases objGet fs "external_url" with
        | none =>
          simp only [List.map_cons, List.map_nil]
          exact List.Sublist.cons₂ _ (List.nil_sublist _)
        | some u =>
          dsimp only
          split_ifs
          · simp only [List.map_cons, List.map_nil]
            exact List.Sublist.cons₂ _ (List.nil_sublist _)
          · simp only [List.map_cons, List.map_nil]
            exact List.Sublist.refl _
  · exact List.nil_sublist _

/-- The composed key sequence always follows the fixed block order. -/
theorem priorityItems_keys (pk : List String) (fs : List (String × Field)) :
    List.Sublist ((priorityItems pk fs).map (fun it => it.key))
      ["duration", "location", "compensation", "deadline", "method", "external_url"] := by
  unfold priorityItems
  simp only [List.map_append]
  exact ((((durationItems_keys pk fs).append (locationItems_keys pk fs)).append
    (compensationItems_keys pk fs)).append (deadlineItems_keys pk fs)).append
    (methodItems_keys pk fs)

/-- `boxItems` of a `createPriorityBox` result is always the composed list
or empty. -/
theorem boxItems_createPriorityBox (s : Settings) (fs : List (String × Field))
    (it : PriorityItem) (h : it ∈ boxItems (createPriorityBox s fs)) :
    it ∈ priorityItems s.jobRearrangerPriorityKeys fs := by
  unfold createPriorityBox at h
  by_cases h1 : (!s.jobRearrangerEnabled) = true
  · rw [if_pos h1] at h
    simp [boxItems] at h
  · rw [if_neg h1] at h
    dsimp only at h
    by_cases h2 : priorityItems s.jobRearrangerPriorityKeys fs = []
    · rw [if_pos h2] at h
      simp [boxItems] at h
    · rw [if_neg h2] at h
      simpa [boxItems] using h

/-! ## Composer theorems (C2, C3, C6) -/

/-- C2 (amended): the priority items appear in the fixed recognised-key
check order of the source (`duration`, `location`, `compensation`,
`deadline`, `method`, `external_url`), filtered by membership in the user's
priority-key list — independent of the configured list's own order and of
the `FieldMapping` insertion order. -/
theorem createPriorityBox_fixed_order (s : Settings) (fs : List (String × Field)) :
    List.Sublist ((boxItems (createPriorityBox s fs)).map (fun it => it.key))
      ["duration", "location", "compensation", "deadline", "method", "external_url"] := by
  unfold createPriorityBox
  by_cases h1 : (!s.jobRearrangerEnabled) = true
  · rw [if_pos h1]
    exact List.nil_sublist _
  · rw [if_neg h1]
    dsimp only
    by_cases h2 : priorityItems s.jobRearrangerPriorityKeys fs = []
    · rw [if_pos h2]
      exact List.nil_sublist _
    · rw [if_neg h2]
      exact priorityItems_keys _ fs

/-- C2 (counterexample): with the priority-key list configured as
`location` before `duration` (an ordering of the recognised keys), the
composer still emits `duration` before `location` — the fixed check order,
not the order implied by the user's configured list. -/
theorem createPriorityBox_fixed_order_counterexample :
    createPriorityBox
        ⟨true, ["location", "duration", "compensation", "deadline", "method"],
         ["job_description", "responsibilities", "required_skills", "targeted_degrees"]⟩
        [("duration", ⟨"Work Term Duration", "4 months", 1⟩),
         ("city", ⟨"Job - City", "Waterloo", 2⟩),
         ("province", ⟨"Job - Province/State", "ON", 3⟩)] =
      some [⟨"Work Term Duration", "4 months", "duration", false⟩,
            ⟨"Location", "Waterloo, ON", "location", false⟩] ∧
    ¬ List.Sublist ["duration", "location"]
        ["location", "duration", "compensation", "deadline", "method"] := by
  constructor
  · decide
  · decide

/-- C3: when the method value normalises (lowercase, trim) to exactly
`waterlooworks` or to the empty string, the composer emits neither a
`method` item nor an `external_url` item, even when an external URL field
is present; and when the method value is `Email` with an external URL
`http://example.com/apply` present (both keys in the priority list), the
composed list ends with an `Apply Via` item immediately followed by an
`Application URL` item flagged as a link. -/
theorem createPriorityBox_method_gate :
    (∀ (s : Settings) (fs : List (String × Field)) (f : Field),
      objGet fs "method" = some f →
      (jsTrim (jsToLower f.value) = "waterlooworks" ∨ jsTrim (jsToLower f.value) = "") →
      ∀ it ∈ boxItems (createPriorityBox s fs),
        it.key ≠ "method" ∧ it.key ≠ "external_url") ∧
    (∀ (s : Settings) (fs : List (String × Field)) (f u : Field),
      s.jobRearrangerEnabled = true →
      "method" ∈ s.jobRearrangerPriorityKeys →
      "external_url" ∈ s.jobRearrangerPriorityKeys →
      objGet fs "method" = some f → f.value = "Email" →
      objGet fs "external_url" = some u → u.value = "http://example.com/apply" →
      createPriorityBox s fs ≠ none ∧
      List.IsSuffix
        [⟨"Apply Via", "Email", "method", false⟩,
         ⟨"Application URL", "http://example.com/apply", "external_url", true⟩]
        (boxItems (createPriorityBox s fs))) := by
  constructor
  · intro s fs f hf hreg it hit
    have hmem := boxItems_createPriorityBox s fs it hit
    rcases mem_priorityItems _ _ _ hmem with h | h | h | h | h
    · have hk := key_of_mem_durationItems _ _ _ h
      exact ⟨by rw [hk]; decide, by rw [hk]; decide⟩
    · have hk := key_of_mem_locationItems _ _ _ h
      exact ⟨by rw [hk]; decide, by rw [hk]; decide⟩
    · have hk := key_of_mem_compensationItems _ _ _ h
      exact ⟨by rw [hk]; decide, by rw [hk]; decide⟩
    · have hk := key_of_mem_deadlineItems _ _ _ h
      exact ⟨by rw [hk]; decide, by rw [hk]; decide⟩
    · rw [methodItems_nil_of_regular _ fs f hf hreg] at h
      simp at h
  · intro s fs f u hen hmpk hupk hf hfv hu huv
    have hmeth : methodItems s.jobRearrangerPriorityKeys fs =
        [⟨"Apply Via", "Email", "method", false⟩,
         ⟨"Application URL", "http://example.com/apply", "external_url", true⟩] := by
      unfold methodItems
      rw [if_pos hmpk, hf]
      dsimp only
      rw [hfv]
      rw [if_neg (by decide)]
      rw [hu]
      dsimp only
      rw [huv]
      rw [if_neg (by decide)]
    have henb : ¬((!s.jobRearrangerEnabled) = true) := by rw [hen]; decide
    have hne : priorityItems s.jobRearrangerPriorityKeys fs ≠ [] := by
      intro hemp
      unfold priorityItems at hemp
      rw [hmeth] at hemp
      simp at hemp
    have hbox : createPriorityBox s fs =
        some (priorityItems s.jobRearrangerPriorityKeys fs) := by
      unfold createPriorityBox
      rw [if_neg henb]
      dsimp only
      rw [if_neg hne]
    constructor
    · rw [hbox]
      exact Option.some_ne_none _
    · rw [hbox]
      show List.IsSuffix _ (priorityItems s.jobRearrangerPriorityKeys fs)
      unfold priorityItems
      rw [hmeth]
      exact List.suffix_append _ _
  -- the suffix fact: the method block is the final appended segment

/-- C3 witness: the gate at a `WaterlooWorks` method value (no method or
URL item survives next to a promoted duration item) and at an `Email`
method value with an external URL (the two items close the list). -/
theorem createPriorityBox_method_gate_witness :
    ((⟨"Work Term Duration", "4 months", "duration", false⟩ : PriorityItem).key ≠ "method" ∧
     (⟨"Work Term Duration", "4 months", "duration", false⟩ : PriorityItem).key ≠ "external_url") ∧
    (createPriorityBox ⟨true, ["method", "external_url"], []⟩
        [("method", ⟨"Application Delivery", "Email", 1⟩),
         ("external_url", ⟨"If by Website, go to", "http://example.com/apply", 2⟩)] ≠ none ∧
     List.IsSuffix
        [⟨"Apply Via", "Email", "method", false⟩,
         ⟨"Application URL", "http://example.com/apply", "external_url", true⟩]
        (boxItems (createPriorityBox ⟨true, ["method", "external_url"], []⟩
          [("method", ⟨"Application Delivery", "Email", 1⟩),
           ("external_url", ⟨"If by Website, go to", "http://example.com/apply", 2⟩)]))) :=
  ⟨createPriorityBox_method_gate.1
      ⟨true, ["duration", "location", "compensation", "deadline", "method"], []⟩
      [("duration", ⟨"Work Term Duration", "4 months", 1⟩),
       ("method", ⟨"Application Delivery", "WaterlooWorks", 2⟩),
       ("external_url", ⟨"If by Website, go to", "http://apply.example", 3⟩)]
      ⟨"Application Delivery", "WaterlooWorks", 2⟩ (by decide) (Or.inl (by decide))
      ⟨"Work Term Duration", "4 months", "duration", false⟩ (by decide),
   createPriorityBox_method_gate.2
      ⟨true, ["method", "external_url"], []⟩
      [("method", ⟨"Application Delivery", "Email", 1⟩),
       ("external_url", ⟨"If by Website, go to", "http://example.com/apply", 2⟩)]
      ⟨"Application Delivery", "Email", 1⟩
      ⟨"If by Website, go to", "http://example.com/apply", 2⟩
      rfl (by decide) (by decide) (by decide) rfl (by decide) rfl⟩

/-- C6: the derived location item — `city` and `province` joined with a
comma-space, else the region-derived `location` field, and no item when
none of the three sources exists. -/
theorem createPriorityBox_location_rules :
    (∀ (s : Settings) (fs : List (String × Field)) (c p : Field),
      s.jobRearrangerEnabled = true → "location" ∈ s.jobRearrangerPriorityKeys →
      objGet fs "city" = some c → c.value = "Waterloo" →
      objGet fs "province" = some p → p.value = "ON" →
      createPriorityBox s fs ≠ none ∧
      (⟨"Location", "Waterloo, ON", "location", false⟩ : PriorityItem) ∈
        boxItems (createPriorityBox s fs)) ∧
    (∀ (s : Settings) (fs : List (String × Field)) (r : Field),
      s.jobRearrangerEnabled = true → "location" ∈ s.jobRearrangerPriorityKeys →
      objGet fs "city" = none → objGet fs "province" = none →
      objGet fs "location" = some r → r.value = "Remote" →
      createPriorityBox s fs ≠ none ∧
      (⟨"Location", "Remote", "location", false⟩ : PriorityItem) ∈
        boxItems (createPriorityBox s fs)) ∧
    (∀ (s : Settings) (fs : List (String × Field)),
      objGet fs "city" = none → objGet fs "province" = none →
      objGet fs "location" = none →
      ∀ it ∈ boxItems (createPriorityBox s fs), it.key ≠ "location") := by
  refine ⟨?_, ?_, ?_⟩
  · intro s fs c p hen hpk hc hcv hp hpv
    have hloc : buildLocation fs = some "Waterloo, ON" := by
      unfold buildLocation
      dsimp only
      rw [hc, hp]
      dsimp only
      rw [hcv, hpv]
      rw [if_pos (by decide)]
      decide
    have hli : locationItems s.jobRearrangerPriorityKeys fs =
        [⟨"Location", "Waterloo, ON", "location", false⟩] := by
      unfold locationItems
      rw [if_pos hpk, hloc]
      dsimp only
      rw [if_neg (by decide)]
    have hmem : (⟨"Location", "Waterloo, ON", "location", false⟩ : PriorityItem) ∈
        priorityItems s.jobRearrangerPriorityKeys fs := by
      unfold priorityItems
      rw [hli]
      simp
    have hne : priorityItems s.jobRearrangerPriorityKeys fs ≠ [] :=
      List.ne_nil_of_mem hmem
    have henb : ¬((!s.jobRearrangerEnabled) = true) := by rw [hen]; decide
    have hbox : createPriorityBox s fs =
        some (priorityItems s.jobRearrangerPriorityKeys fs) := by
      unfold createPriorityBox
      rw [if_neg henb]
      dsimp only
      rw [if_neg hne]
    constructor
    · rw [hbox]
      exact Option.some_ne_none _
    · rw [hbox]
      exact hmem
  · intro s fs r hen hpk hc hp hr hrv
    have hloc : buildLocation fs = some "Remote" := by
      unfold buildLocation
      dsimp only
      rw [hc, hp, hr]
      dsimp only
      rw [hrv]
      decide
    have hli : locationItems s.jobRearrangerPriorityKeys fs =
        [⟨"Location", "Remote", "location", false⟩] := by
      unfold locationItems
      rw [if_pos hpk, hloc]
      dsimp only
      rw [if_neg (by decide)]
    have hmem : (⟨"Location", "Remote", "location", false⟩ : PriorityItem) ∈
        priorityItems s.jobRearrangerPriorityKeys fs := by
      unfold priorityItems
      rw [hli]
      simp
    have hne : priorityItems s.jobRearrangerPriorityKeys fs ≠ [] :=
      List.ne_nil_of_mem hmem
    have henb : ¬((!s.jobRearrangerEnabled) = true) := by rw [hen]; decide
    have hbox : createPriorityBox s fs =
        some (priorityItems s.jobRearrangerPriorityKeys fs) := by
      unfold createPriorityBox
      rw [if_neg henb]
      dsimp only
      rw [if_neg hne]
    constructor
    · rw [hbox]
      exact Option.some_ne_none _
    · rw [hbox]
      exact hmem
  · intro s fs hc hp hr it hit
    have hmem := boxItems_createPriorityBox s fs it hit
    have hbl : buildLocation fs = none := by
      unfold buildLocation
      dsimp only
      rw [hc, hp, hr]
      decide
    rcases mem_priorityItems _ _ _ hmem with h | h | h | h | h
    · have hk := key_of_mem_durationItems _ _ _ h
      rw [hk]; decide
    · rw [locationItems_nil_of_none _ _ hbl] at h
      simp at h
    · have hk := key_of_mem_compensationItems _ _ _ h
      rw [hk]; decide
    · have hk := key_of_mem_deadlineItems _ _ _ h
      rw [hk]; decide
    · rcases key_of_mem_methodItems _ _ _ h with hk | hk <;> rw [hk] <;> decide

/-- C6 witness: `Waterloo` + `ON` join to `Waterloo, ON`; a lone `Remote`
region passes through; with no source field, a promoted duration item does
not carry the location key. -/
theorem createPriorityBox_location_rules_witness :
    (createPriorityBox DEFAULT_SETTINGS
        [("city", ⟨"Job - City", "Waterloo", 1⟩),
         ("province", ⟨"Job - Province/State", "ON", 2⟩)] ≠ none ∧
     (⟨"Location", "Waterloo, ON", "location", false⟩ : PriorityItem) ∈
       boxItems (createPriorityBox DEFAULT_SETTINGS
        [("city", ⟨"Job - City", "Waterloo", 1⟩),
         ("province", ⟨"Job - Province/State", "ON", 2⟩)])) ∧
    (createPriorityBox DEFAULT_SETTINGS [("location", ⟨"Region", "Remote", 4⟩)] ≠ none ∧
     (⟨"Location", "Remote", "location", false⟩ : PriorityItem) ∈
       boxItems (createPriorityBox DEFAULT_SETTINGS [("location", ⟨"Region", "Remote", 4⟩)])) ∧
    ((⟨"Work Term Duration", "8 months", "duration", false⟩ : PriorityItem).key ≠ "location") :=
  ⟨createPriorityBox_location_rules.1 DEFAULT_SETTINGS
      [("city", ⟨"Job - City", "Waterloo", 1⟩), ("province", ⟨"Job - Province/State", "ON", 2⟩)]
      ⟨"Job - City", "Waterloo", 1⟩ ⟨"Job - Province/State", "ON", 2⟩
      rfl (by decide) (by decide) rfl (by decide) rfl,
   createPriorityBox_location_rules.2.1 DEFAULT_SETTINGS
      [("location", ⟨"Region", "Remote", 4⟩)] ⟨"Region", "Remote", 4⟩
      rfl (by decide) (by decide) (by decide) (by decide) rfl,
   createPriorityBox_location_rules.2.2 DEFAULT_SETTINGS
      [("duration", ⟨"Work Term Duration", "8 months", 9⟩)]
      (by decide) (by decide) (by decide)
      ⟨"Work Term Duration", "8 months", "duration", false⟩ (by decide)⟩

/-! ## Hide-phase lemmas and theorems (C5, C8) -/

theorem mem_concatMap (l : List α) (f : α → List β) (b : β) :
    b ∈ concatMap l f ↔ ∃ a, a ∈ l ∧ b ∈ f a := by
  induction l with
  | nil => simp [concatMap]
  | cons x xs ih =>
    simp only [concatMap, List.mem_append, ih, List.mem_cons]
    constructor
    · rintro (h | ⟨a, ha, hb⟩)
      · exact ⟨x, Or.inl rfl, h⟩
      · exact ⟨a, Or.inr ha, hb⟩
    · rintro ⟨a, ha | ha, hb⟩
      · exact Or.inl (ha ▸ hb)
      · exact Or.inr ⟨a, ha, hb⟩

/-- Membership characterisation of the hide phase: an element is hidden
exactly when it backs a non-`location` key of the priority list, or a
location-constituent key while `location` is in the list, or one of
`deadline`, `method`, `external_url` (the latter three unconditionally). -/
theorem mem_hiddenElems (pk : List String) (elems : List (String × Nat)) (e : Nat) :
    e ∈ hiddenElems pk elems ↔
      ((∃ k, k ∈ pk ∧ k ≠ "location" ∧ objGet elems k = some e) ∨
       ("location" ∈ pk ∧ ∃ lk, lk ∈ locationKeys ∧ objGet elems lk = some e) ∨
       objGet elems "deadline" = some e ∨
       objGet elems "method" = some e ∨
       objGet elems "external_url" = some e) := by
  unfold hiddenElems
  simp only [List.mem_append, mem_concatMap, Option.mem_toList, Option.mem_def]
  constructor
  · rintro (((⟨k, hkpk, hke⟩ | h) | h) | h)
    · by_cases hkl : k = "location"
      · rw [if_pos hkl] at hke
        rcases List.mem_filterMap.mp hke with ⟨lk, hlk, hglk⟩
        exact Or.inr (Or.inl ⟨hkl ▸ hkpk, lk, hlk, hglk⟩)
      · rw [if_neg hkl] at hke
        have hobj : objGet elems k = some e := by
          simpa [Option.mem_toList, Option.mem_def] using hke
        exact Or.inl ⟨k, hkpk, hkl, hobj⟩
    · exact Or.inr (Or.inr (Or.inl h))
    · exact Or.inr (Or.inr (Or.inr (Or.inl h)))
    · exact Or.inr (Or.inr (Or.inr (Or.inr h)))
  · rintro (⟨k, hkpk, hkl, hge⟩ | ⟨hlpk, lk, hlk, hglk⟩ | h | h | h)
    · refine Or.inl (Or.inl (Or.inl ⟨k, hkpk, ?_⟩))
      rw [if_neg hkl]
      simpa [Option.mem_toList, Option.mem_def] using hge
    · refine Or.inl (Or.inl (Or.inl ⟨"location", hlpk, ?_⟩))
      rw [if_pos rfl]
      exact List.mem_filterMap.mpr ⟨lk, hlk, hglk⟩
    · exact Or.inl (Or.inl (Or.inr h))
    · exact Or.inl (Or.inr h)
    · exact Or.inr h

/-- C5 (amended): on every pass that reaches the hide phase (settings
loaded and enabled, not re-entrant, container present, not yet enhanced,
OVERVIEW tab, non-empty extraction, anchor panel found), `enhanceModal`
removes any existing box, inserts a panel exactly when the composer
produced one, marks the view processed, and hides — whether or not a panel
was inserted — the elements of the non-`location` priority keys, the five
location-constituent fields when `location` is in the list (but not a
region-backed `location` element itself), and `deadline`, `method`,
`external_url` unconditionally when present. -/
theorem enhanceModal_hide_phase (d : ModalDom) (s : Settings)
    (hs : d.settingsOpt = some s) (hen : s.jobRearrangerEnabled = true)
    (hE : d.isEnhancing = false) (hM : d.modalPresent = true)
    (hA : d.azureEnhanced ≠ "true") (hT : tabOk d = true)
    (hF : (parseFieldsFromModal d.widgets).fields ≠ [])
    (hP : d.anchorPanelPresent = true) :
    enhanceModal d =
      { removedExisting := d.existingBoxPresent
        insertedPanel := (createPriorityBox s (parseFieldsFromModal d.widgets).fields).isSome
        hidden := hiddenElems s.jobRearrangerPriorityKeys
          (parseFieldsFromModal d.widgets).fieldElements
        marked := true } ∧
    (∀ e, e ∈ (enhanceModal d).hidden ↔
      ((∃ k, k ∈ s.jobRearrangerPriorityKeys ∧ k ≠ "location" ∧
          objGet (parseFieldsFromModal d.widgets).fieldElements k = some e) ∨
       ("location" ∈ s.jobRearrangerPriorityKeys ∧ ∃ lk, lk ∈ locationKeys ∧
          objGet (parseFieldsFromModal d.widgets).fieldElements lk = some e) ∨
       objGet (parseFieldsFromModal d.widgets).fieldElements "deadline" = some e ∨
       objGet (parseFieldsFromModal d.widgets).fieldElements "method" = some e ∨
       objGet (parseFieldsFromModal d.widgets).fieldElements "external_url" = some e)) := by
  have heq : enhanceModal d =
      { removedExisting := d.existingBoxPresent
        insertedPanel := (createPriorityBox s (parseFieldsFromModal d.widgets).fields).isSome
        hidden := hiddenElems s.jobRearrangerPriorityKeys
          (parseFieldsFromModal d.widgets).fieldElements
        marked := true } := by
    unfold enhanceModal
    rw [hs]
    dsimp only
    rw [if_neg (by rw [hen]; decide)]
    rw [if_neg (by rw [hE]; decide)]
    rw [if_neg (by rw [hM]; decide)]
    rw [if_neg hA]
    rw [if_neg (by rw [hT]; decide)]
    rw [if_neg hF]
    rw [if_neg (by rw [hP]; decide)]
  refine ⟨heq, ?_⟩
  intro e
  rw [heq]
  exact mem_hiddenElems s.jobRearrangerPriorityKeys
    (parseFieldsFromModal d.widgets).fieldElements e

/-- C5 (counterexample): on a pass where the only recognised field is a
trivial `method` (no panel inserted), elements ARE still hidden; and a
region-backed `location` field's own element, though its key is in the
active priority list and a panel WAS inserted, is NOT hidden. -/
theorem enhanceModal_hide_counterexample :
    ((enhanceModal methodOnlyDom).insertedPanel = false ∧
     (enhanceModal methodOnlyDom).hidden ≠ []) ∧
    ((enhanceModal
        { settingsOpt := some DEFAULT_SETTINGS
          isEnhancing := false
          modalPresent := true
          azureEnhanced := "false"
          activeTabText := some "OVERVIEW"
          widgets := [⟨true, some "Region", some "Remote", none, 8⟩]
          anchorPanelPresent := true
          existingBoxPresent := false }).insertedPanel = true ∧
     objGet (parseFieldsFromModal
        [⟨true, some "Region", some "Remote", none, 8⟩]).fieldElements "location" = some 8 ∧
     8 ∉ (enhanceModal
        { settingsOpt := some DEFAULT_SETTINGS
          isEnhancing := false
          modalPresent := true
          azureEnhanced := "false"
          activeTabText := some "OVERVIEW"
          widgets := [⟨true, some "Region", some "Remote", none, 8⟩]
          anchorPanelPresent := true
          existingBoxPresent := false }).hidden) := by
  refine ⟨⟨by decide, by decide⟩, by decide, by decide, by decide⟩

/-- C5 witness: the full effect record of the no-panel pass, obtained from
the hide-phase theorem at a concrete detail view. -/
theorem enhanceModal_hide_phase_witness :
    enhanceModal methodOnlyDom =
      { removedExisting := methodOnlyDom.existingBoxPresent
        insertedPanel := (createPriorityBox DEFAULT_SETTINGS
          (parseFieldsFromModal methodOnlyDom.widgets).fields).isSome
        hidden := hiddenElems DEFAULT_SETTINGS.jobRearrangerPriorityKeys
          (parseFieldsFromModal methodOnlyDom.widgets).fieldElements
        marked := true } :=
  (enhanceModal_hide_phase methodOnlyDom DEFAULT_SETTINGS rfl rfl rfl rfl
    (by decide) (by decide) (by decide) rfl).1

/-- C8: re-triggering `enhanceModal` on a detail view whose
`dataset.azureEnhanced` is already `'true'` performs no DOM mutation at
all — no removal, no insertion, no hide operation, no re-marking. -/
theorem enhanceModal_idempotent_when_processed (d : ModalDom)
    (h : d.azureEnhanced = "true") : enhanceModal d = noEffects := by
  unfold enhanceModal
  cases hs : d.settingsOpt with
  | none => rfl
  | some s =>
    dsimp only
    by_cases h1 : (!s.jobRearrangerEnabled) = true
    · rw [if_pos h1]
    · rw [if_neg h1]
      by_cases h2 : d.isEnhancing = true
      · rw [if_pos h2]
      · rw [if_neg h2]
        by_cases h3 : (!d.modalPresent) = true
        · rw [if_pos h3]
        · rw [if_neg h3]
          rw [if_pos h]

/-- C8 witness: a processed, otherwise fully enhanceable view yields the
no-mutation effect record. -/
theorem enhanceModal_idempotent_when_processed_witness :
    enhanceModal alreadyEnhancedDom = noEffects :=
  enhanceModal_idempotent_when_processed alreadyEnhancedDom rfl

/-! ## Navigator theorems (C4, C9) -/

/-- C4: a `next` request from the last tracked row with no next-page
control clamps to the last valid index (leaving the state unchanged),
surfaces the non-blocking `Last job` notification, and never arms the
table-update watch; the call is total (no exception), and the only further
effects re-open the same boundary row. -/
theorem navigateJob_clamps_at_last (env : NavEnv) (st : NavState)
    (hne : st.jobLinks ≠ [])
    (hdet : detectIndex env st 1 = (st.jobLinks.length : Int) - 1)
    (hidx : st.currentJobIndex = (st.jobLinks.length : Int) - 1)
    (hbtn : env.nextPageBtnPresent = false) :
    navigateJob env st 1 =
      (st, [NavEffect.notify "Last job (no next page)", NavEffect.closeModal,
            NavEffect.clickJobLink (st.jobLinks.length - 1)]) ∧
    (∀ pos, NavEffect.watchTableUpdate pos ∉ (navigateJob env st 1).2) := by
  have hlen : 0 < st.jobLinks.length := List.length_pos.mpr hne
  have hempty : st.jobLinks.isEmpty = false := by
    cases hjl : st.jobLinks with
    | nil => exact absurd hjl hne
    | cons a t => rfl
  have heq : navigateJob env st 1 =
      (st, [NavEffect.notify "Last job (no next page)", NavEffect.closeModal,
            NavEffect.clickJobLink (st.jobLinks.length - 1)]) := by
    unfold navigateJob
    rw [if_neg (by rw [hempty]; decide)]
    dsimp only
    rw [hdet]
    rw [if_neg (by omega)]
    rw [if_pos (by omega)]
    rw [if_neg (by rw [hbtn]; decide)]
    unfold finishNavigate
    dsimp only
    rw [if_pos (by omega)]
    have hst : NavState.mk st.jobLinks ((st.jobLinks.length - 1 : Nat) : Int) = st := by
      have hv : ((st.jobLinks.length - 1 : Nat) : Int) = st.currentJobIndex := by
        rw [hidx]; omega
      rw [hv]
    rw [hst]
    rfl
  refine ⟨heq, ?_⟩
  intro pos
  rw [heq]
  simp

/-- C4 witness: the clamp on a concrete two-row listing open on its last
row with no pagination. -/
theorem navigateJob_clamps_at_last_witness :
    navigateJob lastRowEnv lastRowState 1 =
      (lastRowState, [NavEffect.notify "Last job (no next page)", NavEffect.closeModal,
        NavEffect.clickJobLink 1]) :=
  (navigateJob_clamps_at_last lastRowEnv lastRowState (by decide) (by decide)
    (by decide) rfl).1

/-- C9: the shortlist set only ever handles string identifiers — toggling
any identifier is toggling its string coercion (so the number `123456` and
the string `"123456"` act on the same entry), and every member of a loaded
shortlist is the string coercion of a persisted entry. -/
theorem toggleShortlistJob_strings :
    (∀ (j : JobIdValue) (s : List String),
      toggleShortlistJob j s = toggleShortlistJob (JobIdValue.str (jsString j)) s) ∧
    (∀ s : List String,
      toggleShortlistJob (JobIdValue.num 123456) s =
        toggleShortlistJob (JobIdValue.str "123456") s) ∧
    (∀ (saved : List JobIdValue) (x : String),
      x ∈ loadShortlist saved → x ∈ saved.map jsString) := by
  refine ⟨?_, ?_, ?_⟩
  · intro j s
    rfl
  · intro s
    have h : jsString (JobIdValue.num 123456) = "123456" := by decide
    calc toggleShortlistJob (JobIdValue.num 123456) s
        = toggleShortlistJob (JobIdValue.str (jsString (JobIdValue.num 123456))) s := rfl
      _ = toggleShortlistJob (JobIdValue.str "123456") s := by rw [h]
  · intro saved x hx
    unfold loadShortlist at hx
    exact List.mem_dedup.mp hx

/-- C9 witness: the numeric and string forms of `123456` toggle the same
entry of a concrete shortlist, and a loaded numeric entry appears as its
string form. -/
theorem toggleShortlistJob_strings_witness :
    toggleShortlistJob (JobIdValue.num 123456) ["123456"] =
      toggleShortlistJob (JobIdValue.str "123456") ["123456"] ∧
    "123456" ∈ [JobIdValue.num 123456].map jsString :=
  ⟨toggleShortlistJob_strings.2.1 ["123456"],
   toggleShortlistJob_strings.2.2 [JobIdValue.num 123456] "123456" (by decide)⟩

end WWAzure
